import Mathlib

/-!
Verification of the NeoMindzLive backend test engine (`app.py`, `db.py`,
`tools/adaptive.py`) as a shallow embedding in Lean 4.

Modelling conventions:
* Python floats are modelled as exact rationals (`ℚ`); Python's `round`
  (banker's rounding, half to even) is modelled by `rhe`.
* JSON field values that the code probes with `dict.get` / `isinstance` /
  `safe_int` are modelled by `JField`: `missing` covers an absent key or a
  JSON `null` (both make `dict.get` return `None`), `malformed` a present
  value that `int(...)` cannot parse (resp. that is not a list), and
  `val v` a present value parsing to `v`.
* Process-wide randomness (`random.choice`, `random.randint`, `uuid.uuid4`)
  is made an explicit parameter: a choice index `k : Nat` selects
  `candidates[k % len(candidates)]`, and fresh ids are passed in as strings.
* The SQLite tables are modelled as in-memory lists; an `HTTPException`
  raised before any SQL write is modelled by an `Except.error` that carries
  no new database state.
-/

/-- The three test stages of the session state machine (`stage` column). -/
inductive Stage
  | adaptive
  | classic
  | speed
deriving DecidableEq, Repr

/-- Session lifecycle status (`status` column): the code only ever writes
`in_progress` and `completed`. -/
inductive Status
  | in_progress
  | completed
deriving DecidableEq, Repr

/-- A JSON field as probed by the Python code: absent-or-null, present but
not parseable to the expected type, or a parsed value. -/
inductive JField (α : Type)
  | missing
  | malformed
  | val (a : α)
deriving DecidableEq, Repr

/-- `safe_int(v, default)` from `app.py`, applied to a present value:
`int(v)` succeeds on `val n`, otherwise the default is returned. -/
def JField.toInt (f : JField Int) (default : Int) : Int :=
  match f with
  | .val n => n
  | _ => default

/-- Does the field hold a parseable value? -/
def JField.isVal {α : Type} (f : JField α) : Bool :=
  match f with
  | .val _ => true
  | _ => false

/-- A raw question-bank entry as read from JSON, with the fields that
`normalize_question` / `pick_question` probe.  `id`, `prompt`, `sectionTag`
and `category` are `none` when the stored value is falsy (absent, null or
the empty string), matching the code's `q.get(...) or default` tests. -/
structure RawItem where
  id : Option String
  prompt : Option String
  choices : JField (List String)
  options : JField (List String)
  answer_index : JField Int
  correct_index : JField Int
  difficulty : JField Int
  time_limit_sec : JField Int
  sectionTag : Option String
  category : Option String
  discrimination : Option ℚ
deriving DecidableEq, Repr

/-- A raw item with every field absent; used as the (never reached)
`getD` default when indexing a nonempty candidate list. -/
def RawItem.empty : RawItem :=
  ⟨none, none, .missing, .missing, .missing, .missing, .missing, .missing,
    none, none, none⟩

/-- The canonical item shape that `normalize_question` always returns:
`{id, prompt, choices, answer_index, difficulty, time_limit_sec, stage,
section, category, discrimination}`. -/
structure Item where
  id : String
  prompt : String
  choices : List String
  answer_index : Int
  difficulty : Int
  time_limit_sec : Int
  stage : Stage
  sectionTag : String
  category : Option String
  discrimination : ℚ
deriving DecidableEq, Repr

/-- The lowercase stage string used in prompts and section defaults. -/
def Stage.str : Stage → String
  | .adaptive => "adaptive"
  | .classic => "classic"
  | .speed => "speed"

/-- The uppercase stage string used in demo-item ids (`stage.upper()`). -/
def Stage.upperStr : Stage → String
  | .adaptive => "ADAPTIVE"
  | .classic => "CLASSIC"
  | .speed => "SPEED"

/-- The correct-answer index extraction of `normalize_question`:
`ans = q.get("answer_index")`, falling back to `q.get("correct_index")`
only when the first is absent/null, then `safe_int(ans, 0)`. -/
def extract_index (q : RawItem) : Int :=
  match q.answer_index with
  | .missing => q.correct_index.toInt 0
  | .malformed => 0
  | .val n => n

/-- The choices extraction of `normalize_question`: take `choices` when it
is a list; otherwise take `options`; when the result is not a list or has
fewer than two entries, the fixed placeholder `["A","B","C","D"]`. -/
def extract_choices (q : RawItem) : List String :=
  match q.choices with
  | .val cs => if cs.length < 2 then ["A", "B", "C", "D"] else cs
  | _ =>
    match q.options with
    | .val cs => if cs.length < 2 then ["A", "B", "C", "D"] else cs
    | _ => ["A", "B", "C", "D"]

/-- `normalize_question(raw, stage, fallback_level)` from `app.py`.
`freshId` stands for the `str(uuid.uuid4())` used when the raw id is
falsy. -/
def normalize_question (q : RawItem) (stage : Stage) (fallback_level : Int)
    (freshId : String) : Item :=
  { id := q.id.getD freshId
    prompt := q.prompt.getD ""
    choices := extract_choices q
    answer_index := extract_index q
    difficulty := q.difficulty.toInt fallback_level
    time_limit_sec :=
      if stage = .speed then q.time_limit_sec.toInt 20
      else q.time_limit_sec.toInt 45
    stage := stage
    sectionTag := q.sectionTag.getD stage.str
    category := q.category
    discrimination := q.discrimination.getD 1 }

/-- The id of the synthetic demo item:
`f"DEMO-{stage.upper()}-{adaptive_level}-{random.randint(1000,9999)}"`,
with the random draw passed in as `rand`. -/
def demoId (stage : Stage) (adaptive_level : Int) (rand : Nat) : String :=
  "DEMO-" ++ stage.upperStr ++ "-" ++ toString adaptive_level ++ "-" ++
    toString rand

/-- `demo_question(stage, adaptive_level)` from `app.py`: the fallback item
produced when the bank is empty or an id is not found. -/
def demo_question (stage : Stage) (adaptive_level : Int) (rand : Nat) : Item :=
  { id := demoId stage adaptive_level rand
    prompt := "Demo question for " ++ stage.str ++ ". Choose A."
    choices := ["A", "B", "C", "D"]
    answer_index := 0
    difficulty := if stage = .adaptive then adaptive_level else 2
    time_limit_sec := if stage = .speed then 25 else 60
    stage := stage
    sectionTag := stage.str
    category := some "demo"
    discrimination := 1 }

/-- The fixed allow-list of six classic categories (`CLASSIC_CATS`). -/
def CLASSIC_CATS : List String :=
  ["logic_sequence", "arithmetic_reasoning", "algebra_basic",
    "percent_ratio", "pattern_odd_one_out", "verbal_analogy_simple"]

/-- The fixed allow-list of four speed categories (`SPEED_CATS`). -/
def SPEED_CATS : List String :=
  ["arithmetic_reasoning", "percent_ratio", "pattern_odd_one_out",
    "verbal_analogy_simple"]

/-- Python's `str.strip()`: drop leading and trailing whitespace. -/
def pyStrip (s : String) : String :=
  String.mk
    (((s.data.dropWhile Char.isWhitespace).reverse.dropWhile
      Char.isWhitespace).reverse)

/-- The per-stage eligibility test in `pick_question`'s candidate loop;
`diff = safe_int(q.get("difficulty", 2), 2)` and
`cat = (q.get("category") or "").strip()`. -/
def eligible (stage : Stage) (adaptive_level : Int) (q : RawItem) : Bool :=
  let diff := q.difficulty.toInt 2
  let cat := pyStrip (q.category.getD "")
  match stage with
  | .adaptive => (diff - adaptive_level).natAbs ≤ 1
  | .classic => (cat ∈ CLASSIC_CATS || cat = "") && (2 ≤ diff && diff ≤ 4)
  | .speed => (cat ∈ SPEED_CATS || cat = "") && (1 ≤ diff && diff ≤ 3)

/-- The candidate pool of `pick_question`: the stage-eligible items,
falling back to the whole bank when the filter is empty. -/
def pick_candidates (bank : List RawItem) (stage : Stage)
    (adaptive_level : Int) : List RawItem :=
  let candidates := bank.filter (eligible stage adaptive_level)
  if candidates.isEmpty then bank else candidates

/-- `pick_question(stage, adaptive_level)` from `app.py`.  `k` selects the
`random.choice` among the candidates, `freshId`/`rand` feed the
normalization and demo fallbacks. -/
def pick_question (bank : List RawItem) (stage : Stage) (adaptive_level : Int)
    (k : Nat) (freshId : String) (rand : Nat) : Item :=
  if bank.isEmpty then demo_question stage adaptive_level rand
  else
    let cands := pick_candidates bank stage adaptive_level
    let raw := cands.getD (k % cands.length) RawItem.empty
    normalize_question raw stage
      (if stage = .adaptive then adaptive_level else 2) freshId

/-- `get_question_by_id_or_fallback(qid, stage, adaptive_level)` from
`app.py`: the catalog lookup used at grading time.  Note that the
normalization fallback level is `adaptive_level` for every stage. -/
def get_question_by_id_or_fallback (byId : String → Option RawItem)
    (qid : String) (stage : Stage) (adaptive_level : Int)
    (freshId : String) (rand : Nat) : Item :=
  match byId qid with
  | some raw => normalize_question raw stage adaptive_level freshId
  | none => demo_question stage adaptive_level rand

/-- `stage_limits(stage)["questions"]` from `app.py`. -/
def stage_limits : Stage → Int
  | .adaptive => 12
  | .classic => 18
  | .speed => 20

/-- Python's `round` on a rational: round half to even (banker's
rounding), as used by `round(...)` in `compute_result`. -/
def rhe (x : ℚ) : Int :=
  let n := ⌊x⌋
  let f := x - n
  if f < 1 / 2 then n
  else if 1 / 2 < f then n + 1
  else if n % 2 = 0 then n else n + 1

/-- `round(x, 4)`: round half to even at four decimal places. -/
def round4 (x : ℚ) : ℚ := (rhe (x * 10000) : ℚ) / 10000

/-- One row of `test_answers` as read back by `compute_result`:
`SELECT stage, is_correct, difficulty, time_spent_sec`. -/
structure AnswerRow where
  stage : Stage
  is_correct : Int
  difficulty : Int
  time_spent_sec : Int
deriving DecidableEq, Repr

/-- The per-answer weight `w = 1.0 + (diff - 1) * 0.15`. -/
def weight (difficulty : Int) : ℚ := 1 + (difficulty - 1) * (15 / 100)

/-- The speed-stage time bonus
`max(0.0, (30 - min(30, t)) / 30) * 0.2` for a correct answer. -/
def speedBonus (t : Int) : ℚ :=
  max 0 (((30 - min 30 t : Int) : ℚ) / 30) * (2 / 10)

/-- The running accumulators `pts` / `max_pts` of `compute_result`, one
pair per stage. -/
structure Accum where
  ptsA : ℚ
  ptsC : ℚ
  ptsS : ℚ
  maxA : ℚ
  maxC : ℚ
  maxS : ℚ
deriving DecidableEq, Repr

/-- The zero-initialised accumulators. -/
def Accum.zero : Accum := ⟨0, 0, 0, 0, 0, 0⟩

/-- Points of the given stage. -/
def Accum.pts (a : Accum) : Stage → ℚ
  | .adaptive => a.ptsA
  | .classic => a.ptsC
  | .speed => a.ptsS

/-- Max points of the given stage. -/
def Accum.maxPts (a : Accum) : Stage → ℚ
  | .adaptive => a.maxA
  | .classic => a.maxC
  | .speed => a.maxS

/-- The loop body of `compute_result`: add `w` to `max_pts[stage]`; when
`is_correct == 1` add `w` (plus the time bonus in the speed stage) to
`pts[stage]`. -/
def scoreStep (a : Accum) (r : AnswerRow) : Accum :=
  let w := weight r.difficulty
  let gain : ℚ :=
    if r.is_correct = 1 then
      if r.stage = .speed then w + speedBonus r.time_spent_sec else w
    else 0
  match r.stage with
  | .adaptive => { a with maxA := a.maxA + w, ptsA := a.ptsA + gain }
  | .classic => { a with maxC := a.maxC + w, ptsC := a.ptsC + gain }
  | .speed => { a with maxS := a.maxS + w, ptsS := a.ptsS + gain }

/-- The scorer output `{iq, percentile, final_norm}`. -/
structure ScoreResult where
  iq : Int
  percentile : Int
  final_norm : ℚ
deriving DecidableEq, Repr

/-- The percentile if-chain of `compute_result`. -/
def percentileOf (iq : Int) : Int :=
  if iq ≤ 70 then 2
  else if iq ≤ 85 then 16
  else if iq ≤ 100 then 50
  else if iq ≤ 110 then 75
  else if iq ≤ 115 then 84
  else if iq ≤ 120 then 91
  else if iq ≤ 125 then 95
  else 98

/-- `compute_result(con, session_id)` from `app.py`, as a function of the
session's answer rows: accumulate points, normalize per stage, combine
with weights 0.35 / 0.45 / 0.20, map to an IQ value and a percentile.
The returned `final_norm` is `round(final_norm, 4)`. -/
def compute_result (rows : List AnswerRow) : ScoreResult :=
  let acc := rows.foldl scoreStep Accum.zero
  let norm : Stage → ℚ := fun s =>
    if acc.maxPts s ≤ 0 then 0 else min 1 (acc.pts s / acc.maxPts s)
  let final_norm :=
    norm .adaptive * (35 / 100) + norm .classic * (45 / 100) +
      norm .speed * (20 / 100)
  let iq := rhe (70 + final_norm * 60)
  { iq := iq, percentile := percentileOf iq, final_norm := round4 final_norm }

/-! ### The Scorer algorithm as worded in the specification (§4.4)

These definitions follow the spec's words, to be compared with
`compute_result` above (claim C1): partition by stage, sum the weights,
add the speed bonus for correct speed answers, normalize, combine, round.
The spec does not round the reported `final_norm`. -/

/-- Spec §4.4 step 2: `max_points[stage]` is the sum of the weights of the
stage's answers. -/
def spec_max_points (rows : List AnswerRow) (s : Stage) : ℚ :=
  ((rows.filter (fun r => r.stage = s)).map (fun r => weight r.difficulty)).sum

/-- Spec §4.4 steps 2–3: `points[stage]` is the sum, over the stage's
correct answers, of the weight plus (speed stage only) the time bonus. -/
def spec_points (rows : List AnswerRow) (s : Stage) : ℚ :=
  ((rows.filter (fun r => r.stage = s)).map (fun r =>
    if r.is_correct = 1 then
      weight r.difficulty +
        (if s = .speed then speedBonus r.time_spent_sec else 0)
    else 0)).sum

/-- Spec §4.4 step 4: the per-stage normalized score. -/
def spec_norm (rows : List AnswerRow) (s : Stage) : ℚ :=
  if spec_max_points rows s ≤ 0 then 0
  else min 1 (spec_points rows s / spec_max_points rows s)

/-- Spec §4.4 step 5: the composite normalized score. -/
def spec_final_norm (rows : List AnswerRow) : ℚ :=
  spec_norm rows .adaptive * (35 / 100) + spec_norm rows .classic * (45 / 100) +
    spec_norm rows .speed * (20 / 100)

/-- Spec §4.4 steps 1–7 as one function: the Result of the spec's scoring
algorithm, with `final_norm` exactly the step-5 value (unrounded). -/
def spec_score (rows : List AnswerRow) : ScoreResult :=
  let iq := rhe (70 + spec_final_norm rows * 60)
  { iq := iq, percentile := percentileOf iq, final_norm := spec_final_norm rows }

/-! ### Session state machine and database model -/

/-- The `test_sessions` columns the engine reads and writes. -/
structure Session where
  stage : Stage
  stage_index : Int
  question_index : Int
  adaptive_level : Int
  status : Status
  result_locked : Bool
  unlock_token_id : Option String
  final_iq : Option Int
  percentile : Option Int
deriving DecidableEq, Repr

/-- The session inserted by `POST /api/test/start` for a new user:
`stage='adaptive', stage_index=1, question_index=1, adaptive_level=2,
status='in_progress', result_locked=1`. -/
def freshSession : Session :=
  { stage := .adaptive, stage_index := 1, question_index := 1
    adaptive_level := 2, status := .in_progress, result_locked := true
    unlock_token_id := none, final_iq := none, percentile := none }

/-- The payload of `POST /api/test/answer` plus the per-request random
draws (`uuid.uuid4` for normalization, demo-id draws, `random.choice`
index for the next question). -/
structure AnswerInput where
  question_id : String
  chosen_index : Int
  time_spent_sec : Int
  gradeFreshId : String
  gradeRand : Nat
  pickK : Nat
  pickFreshId : String
  pickRand : Nat
deriving Repr

/-- The `test_answers` row recorded by `test_answer`: grade the payload's
chosen index against the item looked up by id (`is_correct`), and store
the stage, the item's normalized difficulty and the time spent. -/
def gradedRow (byId : String → Option RawItem) (s : Session)
    (inp : AnswerInput) : AnswerRow :=
  let q := get_question_by_id_or_fallback byId inp.question_id s.stage
    s.adaptive_level inp.gradeFreshId inp.gradeRand
  { stage := s.stage
    is_correct := if inp.chosen_index = q.answer_index then 1 else 0
    difficulty := q.difficulty
    time_spent_sec := inp.time_spent_sec }

/-- The post-guard body of `test_answer`, acting on one session's state
and its recorded answer rows: grade against the item looked up by id,
append the answer row, update the ability level in the adaptive stage,
advance the stage machine, and on speed-stage completion run
`compute_result` and mark the session completed and locked. -/
def answerCore (byId : String → Option RawItem) (s : Session)
    (rows : List AnswerRow) (inp : AnswerInput) : Session × List AnswerRow :=
  let row := gradedRow byId s inp
  let rows1 := rows ++ [row]
  let lvl :=
    if s.stage = .adaptive then
      if row.is_correct = 1 then min 5 (s.adaptive_level + 1)
      else max 1 (s.adaptive_level - 1)
    else s.adaptive_level
  let q_index := s.question_index + 1
  if q_index > stage_limits s.stage then
    match s.stage with
    | .adaptive =>
      ({ s with
          stage := .classic
          stage_index := 2
          question_index := 1
          adaptive_level := lvl }, rows1)
    | .classic =>
      ({ s with
          stage := .speed
          stage_index := 3
          question_index := 1
          adaptive_level := lvl }, rows1)
    | .speed =>
      let result := compute_result rows1
      ({ s with
          status := .completed
          final_iq := some result.iq
          percentile := some result.percentile
          result_locked := true
          unlock_token_id := none }, rows1)
  else
    ({ s with question_index := q_index, adaptive_level := lvl }, rows1)

/-- One answer submission including the lifecycle guard: a session that is
not `in_progress` is rejected (`400 Session already completed.`) and its
state is left untouched. -/
def answerStep (byId : String → Option RawItem) (st : Session × List AnswerRow)
    (inp : AnswerInput) : Session × List AnswerRow :=
  if st.1.status = .in_progress then answerCore byId st.1 st.2 inp else st

/-- A whole sequence of answer submissions against one session. -/
def runAnswers (byId : String → Option RawItem) (st : Session × List AnswerRow)
    (inps : List AnswerInput) : Session × List AnswerRow :=
  inps.foldl (answerStep byId) st

/-- One row of the `test_sessions` table: primary key, owner, state. -/
structure SessRec where
  sid : String
  uid : String
  sess : Session
deriving DecidableEq, Repr

/-- The database state touched by the engine: sessions, answers (tagged by
session id), and the ids of created unlock tokens. -/
structure DB where
  sessions : List SessRec
  answers : List (String × AnswerRow)
  tokens : List String
deriving DecidableEq, Repr

/-- `SELECT * FROM test_sessions WHERE id=? AND user_id=?`. -/
def DB.lookupSession (db : DB) (sid uid : String) : Option SessRec :=
  db.sessions.find? (fun r => r.sid = sid && r.uid = uid)

/-- `UPDATE test_sessions SET ... WHERE id=? AND user_id=?`. -/
def DB.updateSession (db : DB) (sid uid : String) (s : Session) : DB :=
  { db with
    sessions := db.sessions.map (fun r =>
      if r.sid = sid && r.uid = uid then { r with sess := s } else r) }

/-- `SELECT ... FROM test_answers WHERE session_id=?`. -/
def DB.answersOf (db : DB) (sid : String) : List AnswerRow :=
  (db.answers.filter (fun p => p.1 = sid)).map (fun p => p.2)

/-- `INSERT INTO test_answers ...`. -/
def DB.insertAnswer (db : DB) (sid : String) (row : AnswerRow) : DB :=
  { db with answers := db.answers ++ [(sid, row)] }

/-- The error conditions the endpoints raise (`HTTPException`). -/
inductive ApiError
  | sessionNotFound
  | sessionAlreadyCompleted
  | sessionNotCompleted
  | paymentRequired
deriving DecidableEq, Repr

/-- `POST /api/test/answer` (`test_answer` in `app.py`) at the database
level: look the session up by id and owner (404 when absent), reject a
session that is not in progress (400), then run the answer body and write
the results back.  Both error paths are raised before any insert or
update, so an error carries no new database state. -/
def test_answer (db : DB) (uid : String) (session_id : String)
    (byId : String → Option RawItem) (inp : AnswerInput) :
    Except ApiError DB :=
  match db.lookupSession session_id uid with
  | none => .error .sessionNotFound
  | some rec =>
    if rec.sess.status ≠ .in_progress then .error .sessionAlreadyCompleted
    else
      let s1 := (answerCore byId rec.sess (db.answersOf session_id) inp).1
      let db1 := db.insertAnswer session_id (gradedRow byId rec.sess inp)
      .ok (db1.updateSession session_id uid s1)

/-- The state after an answer call, errors leaving the database as it
was (the exception propagates before any write). -/
def applyAnswer (db : DB) (uid session_id : String)
    (byId : String → Option RawItem) (inp : AnswerInput) : DB :=
  match test_answer db uid session_id byId inp with
  | .ok db1 => db1
  | .error _ => db

/-- The output of `POST /api/payment/unlock`. -/
structure UnlockOut where
  ok : Bool
  already_unlocked : Bool
  unlock_token_id : Option String
deriving DecidableEq, Repr

/-- `POST /api/payment/unlock` (`unlock_result` in `app.py`): reject
`paid=false` with 402 before touching the database; 404 on a missing
session, 400 unless completed; a no-op success when already unlocked;
otherwise create one used token and clear the lock. -/
def unlock_result (db : DB) (uid : String) (session_id : String)
    (paid : Bool) (freshToken : String) : Except ApiError (DB × UnlockOut) :=
  if ¬paid then .error .paymentRequired
  else
    match db.lookupSession session_id uid with
    | none => .error .sessionNotFound
    | some rec =>
      if rec.sess.status ≠ .completed then .error .sessionNotCompleted
      else if rec.sess.result_locked = false then
        .ok (db, ⟨true, true, none⟩)
      else
        let db1 := { db with tokens := db.tokens ++ [freshToken] }
        let s1 := { rec.sess with
                    result_locked := false
                    unlock_token_id := some freshToken }
        .ok (db1.updateSession session_id uid s1,
          ⟨true, false, some freshToken⟩)

/-- The result payload of `GET /api/test/result`. -/
structure ResultOut where
  iq : Option Int
  percentile : Option Int
deriving DecidableEq, Repr

/-- `GET /api/test/result` (`get_result` in `app.py`): 404 on a missing
session, 400 unless completed, 402 `Payment required` while
`result_locked`, else the stored iq and percentile. -/
def get_result (db : DB) (uid : String) (session_id : String) :
    Except ApiError ResultOut :=
  match db.lookupSession session_id uid with
  | none => .error .sessionNotFound
  | some rec =>
    if rec.sess.status ≠ .completed then .error .sessionNotCompleted
    else if rec.sess.result_locked then .error .paymentRequired
    else .ok ⟨rec.sess.final_iq, rec.sess.percentile⟩

/-! ### The standalone selector `choose_next` (`tools/adaptive.py`) -/

/-- A question as consumed by `tools/adaptive.py` (`id`, `category`,
`difficulty` are always present in the generated bank). -/
structure ToolQ where
  id : String
  category : String
  difficulty : Int
deriving DecidableEq, Repr

/-- `b_of(q)`: map difficulty 1..5 to an IRT location `(d - 3) * 1.0`. -/
def b_of (q : ToolQ) : ℚ := ((q.difficulty - 3 : Int) : ℚ)

/-- The candidate pool of `choose_next(bank, used_ids, theta,
target_category)`: drop used ids, optionally narrow to the target
category (falling back when that empties the pool), sort by distance of
`b_of` to `theta` (Python's stable sort), keep the closest 30. -/
def choose_next_pool (bank : List ToolQ) (used_ids : List String) (theta : ℚ)
    (target_category : Option String) : List ToolQ :=
  let candidates := bank.filter (fun (q : ToolQ) => decide (q.id ∉ used_ids))
  let candidates :=
    match target_category with
    | none => candidates
    | some c =>
      let narrowed := candidates.filter (fun (q : ToolQ) => decide (q.category = c))
      if narrowed.isEmpty then candidates else narrowed
  (candidates.mergeSort
    (fun (a b : ToolQ) => decide (|b_of a - theta| ≤ |b_of b - theta|))).take 30

/-- `choose_next` itself: `random.choice(top) if top else None`, with the
random draw passed in as the index `k`. -/
def choose_next (bank : List ToolQ) (used_ids : List String) (theta : ℚ)
    (target_category : Option String) (k : Nat) : Option ToolQ :=
  let top := choose_next_pool bank used_ids theta target_category
  top[k % top.length]?

/-! ### Generated question-bank ids (`tools/generate_bank.py`) -/

/-- The six id tags of the generator's question makers:
`LS`, `AR`, `AL`, `PR`, `OO`, `VA`. -/
def genTag : Fin 6 → String
  | 0 => "LS"
  | 1 => "AR"
  | 2 => "AL"
  | 3 => "PR"
  | 4 => "OO"
  | 5 => "VA"

/-- Zero-padding of `f"{idx:06d}"` for a natural index. -/
def pad6 (n : Nat) : String :=
  let s := toString n
  String.mk (List.replicate (6 - s.length) '0') ++ s

/-- A generated item id, e.g. `LS-000123`. -/
def genId (j : Fin 6) (idx : Nat) : String := genTag j ++ "-" ++ pad6 idx

/-! ### Claim C3: normalization bounds -/

/-- A raw item whose stored answer index (5) lies outside its two
choices. -/
def c3raw : RawItem :=
  { RawItem.empty with
    id := some "bad-idx"
    choices := .val ["Yes", "No"]
    answer_index := .val 5 }

/-- C3 (counterexample): `normalize_question` passes a parseable raw
answer index through without range-checking, so the normalized item of
`c3raw` keeps index 5 with only two choices — the claimed bound
`correct index < len(choices)` is false. -/
theorem C3_counterexample :
    (normalize_question c3raw Stage.classic 2 "fresh").choices.length = 2 ∧
    (normalize_question c3raw Stage.classic 2 "fresh").answer_index = 5 ∧
    ¬((normalize_question c3raw Stage.classic 2 "fresh").answer_index <
        ((normalize_question c3raw Stage.classic 2 "fresh").choices.length : Int)) := by
  refine ⟨rfl, rfl, by decide⟩

/-- The normalized choices always number at least two. -/
lemma extract_choices_len (q : RawItem) : 2 ≤ (extract_choices q).length := by
  unfold extract_choices
  rcases hch : q.choices with _ | _ | cs <;>
    try (rcases hop : q.options with _ | _ | cs2)
  all_goals first
    | decide
    | ((repeat' split) <;> (first | decide | omega))

/-- When neither raw choice field is a list, the placeholder is used. -/
lemma extract_choices_default (q : RawItem) (hc : q.choices.isVal = false)
    (ho : q.options.isVal = false) : extract_choices q = ["A", "B", "C", "D"] := by
  unfold extract_choices
  rcases hch : q.choices with _ | _ | cs <;>
    rcases hop : q.options with _ | _ | cs2 <;>
    simp_all [JField.isVal]

/-- When neither raw index field parses, the index defaults to 0. -/
lemma extract_index_default (q : RawItem) (ha : q.answer_index.isVal = false)
    (hc : q.correct_index.isVal = false) : extract_index q = 0 := by
  unfold extract_index
  rcases hai : q.answer_index with _ | _ | n <;>
    rcases hci : q.correct_index with _ | _ | m <;>
    simp_all [JField.isVal, JField.toInt]

/-- C3 (amended): every normalized item has at least two choices (the
fixed placeholder when both raw choice fields are unusable); the
correct-answer index is the raw index parsed with default 0 and is
passed through unchecked, so it is 0 — and hence in range — whenever
neither raw index field holds a parseable integer. -/
theorem C3_normalize_choices (q : RawItem) (stage : Stage) (fb : Int)
    (fid : String) :
    2 ≤ (normalize_question q stage fb fid).choices.length ∧
    ((normalize_question q stage fb fid).choices = extract_choices q ∧
      (normalize_question q stage fb fid).answer_index = extract_index q) ∧
    (q.choices.isVal = false → q.options.isVal = false →
      (normalize_question q stage fb fid).choices = ["A", "B", "C", "D"]) ∧
    (q.answer_index.isVal = false → q.correct_index.isVal = false →
      (normalize_question q stage fb fid).answer_index = 0 ∧
      0 ≤ (normalize_question q stage fb fid).answer_index ∧
      (normalize_question q stage fb fid).answer_index <
        ((normalize_question q stage fb fid).choices.length : Int)) := by
  have hlen := extract_choices_len q
  refine ⟨hlen, ⟨rfl, rfl⟩, ?_, ?_⟩
  · intro hc ho
    exact extract_choices_default q hc ho
  · intro ha hc
    have hz := extract_index_default q ha hc
    refine ⟨hz, ?_, ?_⟩
    · show (0 : Int) ≤ extract_index q
      omega
    · show extract_index q < ((extract_choices q).length : Int)
      omega

/-- C3 (witness): the amended theorem at the all-missing raw item — the
index defaults to 0 and lies in range of the 4-option placeholder. -/
theorem C3_witness :
    2 ≤ (normalize_question RawItem.empty Stage.adaptive 2 "w").choices.length ∧
    (normalize_question RawItem.empty Stage.adaptive 2 "w").answer_index = 0 ∧
    (normalize_question RawItem.empty Stage.adaptive 2 "w").answer_index <
      ((normalize_question RawItem.empty Stage.adaptive 2 "w").choices.length : Int) := by
  obtain ⟨h1, _, _, h4⟩ := C3_normalize_choices RawItem.empty .adaptive 2 "w"
  obtain ⟨hz, _, hlt⟩ := h4 rfl rfl
  exact ⟨h1, hz, hlt⟩

/-! ### Claim C5: difficulty fallback at the two normalization sites -/

/-- A catalog item with no difficulty field. -/
def c5raw : RawItem := { RawItem.empty with id := some "Q1" }

/-- A catalog containing only `c5raw` under id `Q1`. -/
def c5byId : String → Option RawItem :=
  fun qid => if qid = "Q1" then some c5raw else none

/-- C5 (counterexample): grading a classic-stage answer against the
difficulty-free catalog item `Q1` while the ability level is 5 records
difficulty 5, not the claimed stage fallback 2:
`get_question_by_id_or_fallback` passes `adaptive_level` as the
normalization fallback for every stage. -/
theorem C5_counterexample :
    (get_question_by_id_or_fallback c5byId "Q1" Stage.classic 5 "w" 0).difficulty
        = 5 ∧
    (get_question_by_id_or_fallback c5byId "Q1" Stage.classic 5 "w" 0).difficulty
        ≠ 2 := by
  refine ⟨rfl, by decide⟩

/-- C5 (amended): for an item with no parseable difficulty, the selection
site `pick_question` normalizes with fallback `ability_level` in the
adaptive stage and 2 otherwise, as claimed; but the grading site
`get_question_by_id_or_fallback` uses fallback `ability_level` for every
stage. -/
theorem C5_difficulty_fallback :
    (∀ (bank : List RawItem) (stage : Stage) (lvl : Int) (k : Nat)
        (fid : String) (rand : Nat),
      bank ≠ [] →
      ((pick_candidates bank stage lvl).getD
          (k % (pick_candidates bank stage lvl).length)
          RawItem.empty).difficulty.isVal = false →
      (pick_question bank stage lvl k fid rand).difficulty =
        if stage = .adaptive then lvl else 2) ∧
    (∀ (byId : String → Option RawItem) (qid : String) (raw : RawItem)
        (stage : Stage) (lvl : Int) (fid : String) (rand : Nat),
      byId qid = some raw →
      raw.difficulty.isVal = false →
      (get_question_by_id_or_fallback byId qid stage lvl fid rand).difficulty
        = lvl) := by
  constructor
  · intro bank stage lvl k fid rand hne hval
    have hemp : bank.isEmpty = false := by
      simpa [List.isEmpty_iff] using hne
    unfold pick_question
    rw [hemp]
    simp only [Bool.false_eq_true, if_false, normalize_question]
    set raw := (pick_candidates bank stage lvl).getD
      (k % (pick_candidates bank stage lvl).length) RawItem.empty with hraw
    rcases hd : raw.difficulty with _ | _ | n <;>
      simp_all [JField.toInt, JField.isVal]
  · intro byId qid raw stage lvl fid rand hfound hval
    unfold get_question_by_id_or_fallback
    rw [hfound]
    simp only [normalize_question]
    rcases hd : raw.difficulty with _ | _ | n <;>
      simp_all [JField.toInt, JField.isVal]

/-- C5 (witness): the amended theorem at concrete inputs — selection over
a one-item difficulty-free bank in the classic stage yields fallback 2,
grading the same kind of item by id at ability 5 yields 5. -/
theorem C5_witness :
    (pick_question [RawItem.empty] Stage.classic 3 0 "w" 0).difficulty = 2 ∧
    (get_question_by_id_or_fallback c5byId "Q1" Stage.speed 5 "w" 0).difficulty
      = 5 := by
  constructor
  · have h := C5_difficulty_fallback.1 [RawItem.empty] .classic 3 0 "w" 0
      (by decide) (by decide)
    simpa using h
  · exact C5_difficulty_fallback.2 c5byId "Q1" c5raw .speed 5 "w" 0 (by decide) rfl

/-! ### Claim C9: demo-item fallback -/

/-- Demo ids start with the character `D`. -/
lemma demoId_head (stage : Stage) (lvl : Int) (rand : Nat) :
    (demoId stage lvl rand).data.head? = some 'D' := by
  unfold demoId
  simp [String.data_append]

/-- Generator ids start with `L`, `A`, `P`, `O` or `V` — never `D`. -/
lemma genId_head (j : Fin 6) (idx : Nat) :
    (genId j idx).data.head? ≠ some 'D' := by
  fin_cases j <;> simp [genId, genTag, String.data_append]

/-- C9 (confirmed): an answer submission whose item id is absent from the
catalog, and any selection from an empty catalog, is served the demo item
(no error path exists: the functions are total); the demo item's correct
choice is index 0, its difficulty is the ability level in the adaptive
stage and 2 otherwise, and its freshly generated id (prefixed `DEMO-`)
never collides with an id produced by the repository's bank generator. -/
theorem C9_demo_item :
    ∀ (byId : String → Option RawItem) (qid : String) (stage : Stage)
      (lvl : Int) (fid : String) (rand k : Nat),
      byId qid = none →
      get_question_by_id_or_fallback byId qid stage lvl fid rand =
          demo_question stage lvl rand ∧
      pick_question [] stage lvl k fid rand = demo_question stage lvl rand ∧
      (demo_question stage lvl rand).answer_index = 0 ∧
      (demo_question stage lvl rand).difficulty =
        (if stage = .adaptive then lvl else 2) ∧
      ∀ (j : Fin 6) (idx : Nat),
        (demo_question stage lvl rand).id ≠ genId j idx := by
  intro byId qid stage lvl fid rand k hnone
  refine ⟨?_, rfl, rfl, rfl, ?_⟩
  · unfold get_question_by_id_or_fallback
    rw [hnone]
  · intro j idx heq
    have h1 : (demoId stage lvl rand).data.head? = some 'D' :=
      demoId_head stage lvl rand
    have h2 := genId_head j idx
    have hid : (demo_question stage lvl rand).id = demoId stage lvl rand := rfl
    rw [hid] at heq
    rw [heq] at h1
    exact h2 h1

/-- C9 (witness): the theorem at a concrete empty catalog and unknown id. -/
theorem C9_witness :
    get_question_by_id_or_fallback (fun _ => none) "nope" Stage.speed 3 "w" 5 =
      demo_question Stage.speed 3 5 ∧
    (demo_question Stage.speed 3 5).answer_index = 0 ∧
    (demo_question Stage.speed 3 5).difficulty = 2 ∧
    (demo_question Stage.speed 3 5).id ≠ genId 0 0 := by
  obtain ⟨h1, _, h3, h4, h5⟩ :=
    C9_demo_item (fun _ => none) "nope" Stage.speed 3 "w" 5 0 rfl
  exact ⟨h1, h3, h4, h5 0 0⟩

/-! ### Claim C10: answer-endpoint guards precede any mutation -/

/-- C10 (confirmed): `test_answer` fails with `SessionNotFound` when no
session matches the id and owner, and with the wrong-lifecycle error when
the session is not in progress; both checks are raised before any insert
or update, so the database is unchanged on these error paths. -/
theorem C10_answer_guards :
    ∀ (db : DB) (uid sid : String) (byId : String → Option RawItem)
      (inp : AnswerInput),
      (db.lookupSession sid uid = none →
        test_answer db uid sid byId inp = .error .sessionNotFound ∧
        applyAnswer db uid sid byId inp = db) ∧
      (∀ rec : SessRec, db.lookupSession sid uid = some rec →
        rec.sess.status ≠ .in_progress →
        test_answer db uid sid byId inp = .error .sessionAlreadyCompleted ∧
        applyAnswer db uid sid byId inp = db) := by
  intro db uid sid byId inp
  constructor
  · intro h
    have ht : test_answer db uid sid byId inp = .error .sessionNotFound := by
      unfold test_answer
      rw [h]
    refine ⟨ht, ?_⟩
    unfold applyAnswer
    rw [ht]
  · intro rec h hst
    have ht : test_answer db uid sid byId inp =
        .error .sessionAlreadyCompleted := by
      unfold test_answer
      rw [h]
      simp [hst]
    refine ⟨ht, ?_⟩
    unfold applyAnswer
    rw [ht]

/-- A completed, still-locked session used in concrete instances. -/
def doneSess : Session :=
  { stage := .speed, stage_index := 3, question_index := 20
    adaptive_level := 4, status := .completed, result_locked := true
    unlock_token_id := none, final_iq := some 104, percentile := some 75 }

/-- A one-session database holding `doneSess` for user `u1`. -/
def db8 : DB := { sessions := [⟨"s1", "u1", doneSess⟩], answers := [], tokens := [] }

/-- A default answer payload for concrete instances. -/
def inp0 : AnswerInput :=
  { question_id := "q", chosen_index := 0, time_spent_sec := 3
    gradeFreshId := "g", gradeRand := 0, pickK := 0, pickFreshId := "p"
    pickRand := 0 }

/-- C10 (witness): the guards at a concrete database — an unknown session
id gives `SessionNotFound`, a completed session gives the lifecycle
error, and both leave the database unchanged. -/
theorem C10_witness :
    (test_answer db8 "u1" "missing" (fun _ => none) inp0 =
        .error .sessionNotFound ∧
      applyAnswer db8 "u1" "missing" (fun _ => none) inp0 = db8) ∧
    (test_answer db8 "u1" "s1" (fun _ => none) inp0 =
        .error .sessionAlreadyCompleted ∧
      applyAnswer db8 "u1" "s1" (fun _ => none) inp0 = db8) := by
  constructor
  · exact (C10_answer_guards db8 "u1" "missing" (fun _ => none) inp0).1 (by decide)
  · exact (C10_answer_guards db8 "u1" "s1" (fun _ => none) inp0).2
      ⟨"s1", "u1", doneSess⟩ (by decide) (by decide)

/-! ### Claim C8: the unlock gate -/

/-- Looking a session up after `updateSession` on the same key returns the
record with the replaced session state. -/
lemma lookupSession_updateSession (db : DB) (sid uid : String) (s : Session)
    (rec : SessRec) (h : db.lookupSession sid uid = some rec) :
    (db.updateSession sid uid s).lookupSession sid uid =
      some { rec with sess := s } := by
  unfold DB.lookupSession at h
  unfold DB.lookupSession DB.updateSession
  simp only
  revert h
  generalize db.sessions = L
  induction L with
  | nil =>
    intro h
    simp at h
  | cons a l ih =>
    intro h
    simp only [List.map_cons]
    by_cases hb : (decide (a.sid = sid) && decide (a.uid = uid)) = true
    · simp only [List.find?_cons, hb] at h
      injection h with hh
      subst hh
      rw [if_pos hb]
      simp only [List.find?_cons, hb]
    · have hbf : (decide (a.sid = sid) && decide (a.uid = uid)) = false := by
        simpa using hb
      simp only [List.find?_cons, hbf] at h
      rw [if_neg hb]
      simp only [List.find?_cons, hbf]
      exact ih h

/-- C8 (confirmed): for a completed, locked session — result retrieval
fails with `PaymentRequired`; an unlock with `paid=false` fails with
`PaymentRequired`; the first paid unlock records exactly one token,
clears the lock and makes retrieval succeed with the stored values; any
further unlock reports success with `already_unlocked=true` and changes
nothing. -/
theorem C8_unlock_gate :
    ∀ (db : DB) (uid sid tok tok2 : String) (rec : SessRec),
      db.lookupSession sid uid = some rec →
      rec.sess.status = .completed →
      rec.sess.result_locked = true →
      get_result db uid sid = .error .paymentRequired ∧
      unlock_result db uid sid false tok = .error .paymentRequired ∧
      ∃ db1 : DB,
        unlock_result db uid sid true tok = .ok (db1, ⟨true, false, some tok⟩) ∧
        db1.tokens = db.tokens ++ [tok] ∧
        get_result db1 uid sid = .ok ⟨rec.sess.final_iq, rec.sess.percentile⟩ ∧
        unlock_result db1 uid sid true tok2 = .ok (db1, ⟨true, true, none⟩) := by
  intro db uid sid tok tok2 rec hfind hstat hlock
  have hget : get_result db uid sid = .error .paymentRequired := by
    unfold get_result
    rw [hfind]
    simp [hstat, hlock]
  have hupd := lookupSession_updateSession
    ({ db with tokens := db.tokens ++ [tok] } : DB) sid uid
    ({ rec.sess with result_locked := false, unlock_token_id := some tok })
    rec hfind
  refine ⟨hget, by unfold unlock_result; simp,
    ({ db with tokens := db.tokens ++ [tok] } : DB).updateSession sid uid
      { rec.sess with result_locked := false, unlock_token_id := some tok },
    ?_, rfl, ?_, ?_⟩
  · unfold unlock_result
    rw [hfind]
    simp [hstat, hlock]
  · unfold get_result
    rw [hupd]
    simp [hstat]
  · unfold unlock_result
    rw [hupd]
    simp [hstat]

/-- C8 (witness): the gate at the concrete one-session database `db8`:
locked retrieval gives 402, unpaid unlock gives 402, the paid unlock
succeeds recording one token, after which retrieval returns the stored
iq 104 / percentile 75 and a repeated unlock is a no-op success. -/
theorem C8_witness :
    get_result db8 "u1" "s1" = .error .paymentRequired ∧
    unlock_result db8 "u1" "s1" false "t1" = .error .paymentRequired ∧
    ∃ db1 : DB,
      unlock_result db8 "u1" "s1" true "t1" =
        .ok (db1, ⟨true, false, some "t1"⟩) ∧
      db1.tokens = db8.tokens ++ ["t1"] ∧
      get_result db1 "u1" "s1" = .ok ⟨some 104, some 75⟩ ∧
      unlock_result db1 "u1" "s1" true "t2" = .ok (db1, ⟨true, true, none⟩) := by
  have h := C8_unlock_gate db8 "u1" "s1" "t1" "t2" ⟨"s1", "u1", doneSess⟩
    (by decide) (by decide) (by decide)
  exact h

/-! ### Claim C1: the Scorer against the spec's algorithm -/

/-- The loop of `compute_result` accumulates exactly the spec's per-stage
sums on top of the starting accumulator. -/
lemma scoreFold_eq (rows : List AnswerRow) (acc : Accum) :
    rows.foldl scoreStep acc =
      ⟨acc.ptsA + spec_points rows .adaptive,
        acc.ptsC + spec_points rows .classic,
        acc.ptsS + spec_points rows .speed,
        acc.maxA + spec_max_points rows .adaptive,
        acc.maxC + spec_max_points rows .classic,
        acc.maxS + spec_max_points rows .speed⟩ := by
  induction rows generalizing acc with
  | nil =>
    cases acc
    simp [spec_points, spec_max_points]
  | cons r rs ih =>
    rw [List.foldl_cons, ih]
    rcases r with ⟨st, ic, df, ts⟩
    cases st <;> by_cases hic : ic = 1 <;>
      simp [scoreStep, spec_points, spec_max_points, hic, List.filter_cons] <;>
      ring_nf <;> simp [add_assoc, add_comm, add_left_comm]

/-- The per-stage norm computed by `compute_result` equals the spec's. -/
lemma compute_result_eq (rows : List AnswerRow) :
    compute_result rows =
      { iq := rhe (70 + spec_final_norm rows * 60)
        percentile := percentileOf (rhe (70 + spec_final_norm rows * 60))
        final_norm := round4 (spec_final_norm rows) } := by
  unfold compute_result
  rw [scoreFold_eq rows Accum.zero]
  have hp : ∀ s : Stage,
      Accum.pts ⟨0 + spec_points rows .adaptive, 0 + spec_points rows .classic,
        0 + spec_points rows .speed, 0 + spec_max_points rows .adaptive,
        0 + spec_max_points rows .classic, 0 + spec_max_points rows .speed⟩ s =
        spec_points rows s := by
    intro s
    cases s <;> simp [Accum.pts]
  have hm : ∀ s : Stage,
      Accum.maxPts ⟨0 + spec_points rows .adaptive, 0 + spec_points rows .classic,
        0 + spec_points rows .speed, 0 + spec_max_points rows .adaptive,
        0 + spec_max_points rows .classic, 0 + spec_max_points rows .speed⟩ s =
        spec_max_points rows s := by
    intro s
    cases s <;> simp [Accum.maxPts]
  simp only [Accum.zero, hp, hm, spec_final_norm, spec_norm]

/-- C1 (amended): `compute_result` returns exactly the spec §4.4
algorithm's iq and percentile, and as `final_norm` the spec's step-5
composite rounded (half to even) to four decimal places. -/
theorem C1_scorer (rows : List AnswerRow) :
    (compute_result rows).iq = (spec_score rows).iq ∧
    (compute_result rows).percentile = (spec_score rows).percentile ∧
    (compute_result rows).final_norm = round4 ((spec_score rows).final_norm) := by
  rw [compute_result_eq rows]
  exact ⟨rfl, rfl, rfl⟩

/-- The two-answer history that separates the returned `final_norm` from
the spec's unrounded composite: one correct difficulty-1 and one
incorrect difficulty-2 adaptive answer. -/
def c1rows : List AnswerRow :=
  [⟨.adaptive, 1, 1, 0⟩, ⟨.adaptive, 0, 2, 0⟩]

/-- C1 (counterexample): on `c1rows` the spec's composite is `7/43`, but
`compute_result` reports it rounded to four decimals (`0.1628`), so the
function does not return exactly the Result of the spec's algorithm. -/
theorem C1_counterexample : compute_result c1rows ≠ spec_score c1rows := by
  intro h
  have h1 : (compute_result c1rows).final_norm = (spec_score c1rows).final_norm := by
    rw [h]
  have hpa : spec_points c1rows .adaptive = 1 := by
    simp [spec_points, c1rows, weight]
  have hma : spec_max_points c1rows .adaptive = 43 / 20 := by
    simp [spec_max_points, c1rows, weight]
    norm_num
  have hna : spec_norm c1rows .adaptive = 20 / 43 := by
    simp only [spec_norm, hpa, hma]
    norm_num [min_def]
  have hnc : spec_norm c1rows .classic = 0 := by
    have : spec_max_points c1rows .classic = 0 := by
      simp [spec_max_points, c1rows]
    simp [spec_norm, this]
  have hns : spec_norm c1rows .speed = 0 := by
    have : spec_max_points c1rows .speed = 0 := by
      simp [spec_max_points, c1rows]
    simp [spec_norm, this]
  have hfin : spec_final_norm c1rows = 7 / 43 := by
    simp only [spec_final_norm, hna, hnc, hns]
    norm_num
  have hspec : (spec_score c1rows).final_norm = 7 / 43 := by
    simp only [spec_score, hfin]
  have hcode : (compute_result c1rows).final_norm = 407 / 2500 := by
    rw [compute_result_eq c1rows]
    simp only [round4, hfin]
    have hr : rhe (7 / 43 * 10000) = 1628 := by
      simp only [rhe]
      norm_num [Int.floor_eq_iff]
    rw [hr]
    norm_num
  rw [hspec, hcode] at h1
  norm_num at h1

/-! ### Claim C7: iq range and percentile step function -/

/-- Rounding never drops below an integer lower bound. -/
lemma rhe_ge (n : Int) (x : ℚ) (h : (n : ℚ) ≤ x) : n ≤ rhe x := by
  have hf : n ≤ ⌊x⌋ := Int.le_floor.mpr h
  simp only [rhe]
  split
  · exact hf
  · split
    · omega
    · split <;> omega

/-- Rounding never exceeds an integer upper bound. -/
lemma rhe_le (n : Int) (x : ℚ) (h : x ≤ (n : ℚ)) : rhe x ≤ n := by
  have hfl : ⌊x⌋ ≤ n := by
    have h2 := Int.floor_le_floor h
    simpa using h2
  simp only [rhe]
  split
  · exact hfl
  · rename_i hcond
    have hlt : ⌊x⌋ < n := by
      rcases lt_or_eq_of_le hfl with hlt | heq
      · exact hlt
      · exfalso
        apply hcond
        have hx : x - (⌊x⌋ : ℚ) ≤ 0 := by
          rw [heq]
          linarith
        linarith
    split
    · omega
    · split <;> omega

/-- The speed bonus is never negative. -/
lemma speedBonus_nonneg (t : Int) : 0 ≤ speedBonus t := by
  unfold speedBonus
  apply mul_nonneg (le_max_left 0 _)
  norm_num

/-- For difficulties at least 1 every weight is nonnegative. -/
lemma weight_nonneg (d : Int) (hd : 1 ≤ d) : 0 ≤ weight d := by
  unfold weight
  have hc : (1 : ℚ) ≤ (d : ℚ) := by exact_mod_cast hd
  have := mul_nonneg (by linarith : (0 : ℚ) ≤ (d : ℚ) - 1)
    (by norm_num : (0 : ℚ) ≤ 15 / 100)
  linarith

/-- With difficulties at least 1, the spec's `max_points` is nonnegative. -/
lemma spec_max_points_nonneg (rows : List AnswerRow) (s : Stage)
    (hd : ∀ r ∈ rows, 1 ≤ r.difficulty) : 0 ≤ spec_max_points rows s := by
  unfold spec_max_points
  apply List.sum_nonneg
  intro x hx
  obtain ⟨r, hr, rfl⟩ := List.mem_map.mp hx
  exact weight_nonneg r.difficulty (hd r (List.mem_of_mem_filter hr))

/-- With difficulties at least 1, the spec's `points` is nonnegative. -/
lemma spec_points_nonneg (rows : List AnswerRow) (s : Stage)
    (hd : ∀ r ∈ rows, 1 ≤ r.difficulty) : 0 ≤ spec_points rows s := by
  unfold spec_points
  apply List.sum_nonneg
  intro x hx
  obtain ⟨r, hr, rfl⟩ := List.mem_map.mp hx
  have hw := weight_nonneg r.difficulty (hd r (List.mem_of_mem_filter hr))
  have hb := speedBonus_nonneg r.time_spent_sec
  split
  · split <;> linarith
  · exact le_refl 0

/-- With difficulties at least 1, every per-stage norm lies in `[0, 1]`. -/
lemma spec_norm_bounds (rows : List AnswerRow) (s : Stage)
    (hd : ∀ r ∈ rows, 1 ≤ r.difficulty) :
    0 ≤ spec_norm rows s ∧ spec_norm rows s ≤ 1 := by
  unfold spec_norm
  split
  · exact ⟨le_refl 0, by norm_num⟩
  · rename_i hmax
    push_neg at hmax
    constructor
    · exact le_min (by norm_num)
        (div_nonneg (spec_points_nonneg rows s hd) (le_of_lt hmax))
    · exact min_le_left _ _

/-- C7 (amended): the percentile returned by `compute_result` is exactly
the fixed step function `percentileOf` of the returned iq, for every
answer history; and for every history whose difficulties are all at least
1 (as all catalog difficulties are meant to be), the iq lies in
`[70, 130]`.  (Negative stored difficulties can produce negative weights
and push the iq below 70 — see the counterexample.) -/
theorem C7_iq_percentile :
    ∀ rows : List AnswerRow,
      (compute_result rows).percentile = percentileOf ((compute_result rows).iq) ∧
      ((∀ r ∈ rows, 1 ≤ r.difficulty) →
        70 ≤ (compute_result rows).iq ∧ (compute_result rows).iq ≤ 130) := by
  intro rows
  rw [compute_result_eq rows]
  refine ⟨rfl, ?_⟩
  intro hd
  have hA := spec_norm_bounds rows .adaptive hd
  have hC := spec_norm_bounds rows .classic hd
  have hS := spec_norm_bounds rows .speed hd
  have h35 := mul_le_mul_of_nonneg_right hA.2 (by norm_num : (0:ℚ) ≤ 35 / 100)
  have h45 := mul_le_mul_of_nonneg_right hC.2 (by norm_num : (0:ℚ) ≤ 45 / 100)
  have h20 := mul_le_mul_of_nonneg_right hS.2 (by norm_num : (0:ℚ) ≤ 20 / 100)
  have g35 := mul_nonneg hA.1 (by norm_num : (0:ℚ) ≤ 35 / 100)
  have g45 := mul_nonneg hC.1 (by norm_num : (0:ℚ) ≤ 45 / 100)
  have g20 := mul_nonneg hS.1 (by norm_num : (0:ℚ) ≤ 20 / 100)
  have hf0 : 0 ≤ spec_final_norm rows := by
    unfold spec_final_norm
    linarith
  have hf1 : spec_final_norm rows ≤ 1 := by
    unfold spec_final_norm
    linarith
  constructor
  · apply rhe_ge
    push_cast
    linarith
  · apply rhe_le
    push_cast
    linarith

/-- A history with a (malformed) difficulty of `-6`: its weight is
negative, which drives the computed iq below the claimed floor. -/
def c7rows : List AnswerRow :=
  [⟨.adaptive, 1, -6, 0⟩, ⟨.adaptive, 0, 3, 0⟩]

/-- C7 (counterexample): on `c7rows` the computed iq is 69 — outside the
claimed range `[70, 130]`. -/
theorem C7_counterexample :
    (compute_result c7rows).iq = 69 ∧ ¬(70 ≤ (compute_result c7rows).iq) := by
  have hpa : spec_points c7rows .adaptive = -1 / 20 := by
    simp [spec_points, c7rows, weight]
    norm_num
  have hma : spec_max_points c7rows .adaptive = 5 / 4 := by
    simp [spec_max_points, c7rows, weight]
    norm_num
  have hna : spec_norm c7rows .adaptive = -1 / 25 := by
    simp only [spec_norm, hpa, hma]
    norm_num [min_def]
  have hnc : spec_norm c7rows .classic = 0 := by
    have h0 : spec_max_points c7rows .classic = 0 := by
      simp [spec_max_points, c7rows]
    simp [spec_norm, h0]
  have hns : spec_norm c7rows .speed = 0 := by
    have h0 : spec_max_points c7rows .speed = 0 := by
      simp [spec_max_points, c7rows]
    simp [spec_norm, h0]
  have hfin : spec_final_norm c7rows = -7 / 500 := by
    simp only [spec_final_norm, hna, hnc, hns]
    norm_num
  have hiq : (compute_result c7rows).iq = 69 := by
    rw [compute_result_eq c7rows]
    simp only [hfin]
    have : (70 : ℚ) + -7 / 500 * 60 = 1729 / 25 := by norm_num
    rw [this]
    simp only [rhe]
    norm_num [Int.floor_eq_iff]
  refine ⟨hiq, ?_⟩
  rw [hiq]
  omega

/-- C7 (witness): the amended theorem at `c1rows`, whose difficulties are
all at least 1 — the iq lands in `[70, 130]` and the percentile is the
step function of the iq. -/
theorem C7_witness :
    (∀ r ∈ c1rows, 1 ≤ r.difficulty) ∧
    (compute_result c1rows).percentile =
      percentileOf ((compute_result c1rows).iq) ∧
    70 ≤ (compute_result c1rows).iq ∧ (compute_result c1rows).iq ≤ 130 := by
  have hd : ∀ r ∈ c1rows, 1 ≤ r.difficulty := by decide
  obtain ⟨hperc, hbound⟩ := C7_iq_percentile c1rows
  exact ⟨hd, hperc, hbound hd⟩

/-! ### Claims C2 and C4: the stage machine and the ability tracker -/

/-- The number of answers recorded before the current stage begins. -/
def stageBase : Stage → Int
  | .adaptive => 0
  | .classic => 12
  | .speed => 30

/-- The `stage_index` value corresponding to each stage. -/
def stageIdxOf : Stage → Int
  | .adaptive => 1
  | .classic => 2
  | .speed => 3

/-- The running invariant of a session and its recorded answers: while in
progress, `stage_index` matches the stage, `question_index` stays within
`[1, limit]`, and the number of recorded answers is determined by the
stage and question index; once completed, exactly 50 answers exist. -/
def SessInv (s : Session) (rows : List AnswerRow) : Prop :=
  (s.status = .in_progress →
    s.stage_index = stageIdxOf s.stage ∧
    1 ≤ s.question_index ∧ s.question_index ≤ stage_limits s.stage ∧
    (rows.length : Int) = stageBase s.stage + s.question_index - 1) ∧
  (s.status = .completed → rows.length = 50)

/-- One guarded answer submission preserves the invariant. -/
lemma answerStep_inv (byId : String → Option RawItem) (s : Session)
    (rows : List AnswerRow) (inp : AnswerInput) (h : SessInv s rows) :
    SessInv (answerStep byId (s, rows) inp).1
      (answerStep byId (s, rows) inp).2 := by
  unfold answerStep
  by_cases hst : s.status = .in_progress
  · simp only [hst, if_pos]
    obtain ⟨hin, _⟩ := h
    obtain ⟨hidx, hq1, hqle, hlen⟩ := hin hst
    simp only [answerCore]
    by_cases hgt : s.question_index + 1 > stage_limits s.stage
    · rw [if_pos hgt]
      cases hs : s.stage
      · -- adaptive → classic
        rw [hs] at hgt hqle hlen
        simp only [stage_limits, stageBase] at hgt hqle hlen
        refine ⟨fun _ => ⟨rfl, ?_, ?_, ?_⟩, fun hc => ?_⟩
        · norm_num
        · simp [stage_limits]
        · have hl : rows.length = 11 := by omega
          simp [List.length_append, hl, stageBase]
        · rw [hst] at hc
          exact Status.noConfusion hc
      · -- classic → speed
        rw [hs] at hgt hqle hlen
        simp only [stage_limits, stageBase] at hgt hqle hlen
        refine ⟨fun _ => ⟨rfl, ?_, ?_, ?_⟩, fun hc => ?_⟩
        · norm_num
        · simp [stage_limits]
        · have hl : rows.length = 29 := by omega
          simp [List.length_append, hl, stageBase]
        · rw [hst] at hc
          exact Status.noConfusion hc
      · -- speed → completed
        rw [hs] at hgt hqle hlen
        simp only [stage_limits, stageBase] at hgt hqle hlen
        refine ⟨fun hc => ?_, fun _ => ?_⟩
        · exact Status.noConfusion hc
        · have hl : rows.length = 49 := by omega
          simp [List.length_append, hl]
    · rw [if_neg hgt]
      refine ⟨fun _ => ⟨hidx, ?_, ?_, ?_⟩, fun hc => ?_⟩
      · show 1 ≤ s.question_index + 1
        omega
      · show s.question_index + 1 ≤ stage_limits s.stage
        omega
      · show ((rows ++ [gradedRow byId s inp]).length : Int) =
          stageBase s.stage + (s.question_index + 1) - 1
        simp only [List.length_append, List.length_cons, List.length_nil]
        push_cast
        omega
      · rw [hst] at hc
        exact Status.noConfusion hc
  · rw [if_neg hst]
    exact h

/-- A whole sequence of submissions preserves the invariant. -/
lemma runAnswers_inv (byId : String → Option RawItem)
    (inps : List AnswerInput) :
    ∀ (s : Session) (rows : List AnswerRow), SessInv s rows →
      SessInv (runAnswers byId (s, rows) inps).1
        (runAnswers byId (s, rows) inps).2 := by
  induction inps with
  | nil =>
    intro s rows h
    simpa [runAnswers] using h
  | cons i is ih =>
    intro s rows h
    have h1 := answerStep_inv byId s rows i h
    have h2 := ih (answerStep byId (s, rows) i).1
      (answerStep byId (s, rows) i).2 h1
    simpa [runAnswers] using h2

/-- The freshly started session satisfies the invariant. -/
lemma SessInv_fresh : SessInv freshSession [] := by
  constructor
  · intro _
    refine ⟨rfl, ?_, ?_, ?_⟩ <;> simp [freshSession, stage_limits, stageBase]
  · intro h
    simp [freshSession] at h

/-- C2 (confirmed): from a fresh session, every recorded answer appends
exactly one row; within a stage the question index advances by exactly 1;
crossing a stage's limit (12/18/20) advances adaptive→classic→speed with
the question index reset to 1 and `stage_index` 2 resp. 3; crossing the
speed limit completes the session and stores the Scorer's result over all
recorded rows; a completed session has exactly 50 recorded answers and
rejects any further submission unchanged. -/
theorem C2_stage_machine (byId : String → Option RawItem) :
    (∀ (s : Session) (rows : List AnswerRow) (inp : AnswerInput),
      s.status = .in_progress →
      (answerStep byId (s, rows) inp).2 = rows ++ [gradedRow byId s inp] ∧
      (s.question_index + 1 ≤ stage_limits s.stage →
        (answerStep byId (s, rows) inp).1.stage = s.stage ∧
        (answerStep byId (s, rows) inp).1.question_index =
          s.question_index + 1 ∧
        (answerStep byId (s, rows) inp).1.status = .in_progress) ∧
      (s.question_index + 1 > stage_limits s.stage →
        (s.stage = .adaptive →
          (answerStep byId (s, rows) inp).1.stage = .classic ∧
          (answerStep byId (s, rows) inp).1.stage_index = 2 ∧
          (answerStep byId (s, rows) inp).1.question_index = 1 ∧
          (answerStep byId (s, rows) inp).1.status = .in_progress) ∧
        (s.stage = .classic →
          (answerStep byId (s, rows) inp).1.stage = .speed ∧
          (answerStep byId (s, rows) inp).1.stage_index = 3 ∧
          (answerStep byId (s, rows) inp).1.question_index = 1 ∧
          (answerStep byId (s, rows) inp).1.status = .in_progress) ∧
        (s.stage = .speed →
          (answerStep byId (s, rows) inp).1.status = .completed ∧
          (answerStep byId (s, rows) inp).1.final_iq =
            some (compute_result (rows ++ [gradedRow byId s inp])).iq ∧
          (answerStep byId (s, rows) inp).1.percentile =
            some (compute_result (rows ++ [gradedRow byId s inp])).percentile))) ∧
    (∀ inps : List AnswerInput,
      (runAnswers byId (freshSession, []) inps).1.status = .completed →
      (runAnswers byId (freshSession, []) inps).2.length = 50) ∧
    (∀ (s : Session) (rows : List AnswerRow) (inp : AnswerInput),
      s.status = .completed → answerStep byId (s, rows) inp = (s, rows)) := by
  refine ⟨?_, ?_, ?_⟩
  · intro s rows inp hst
    unfold answerStep
    simp only [hst, if_pos]
    simp only [answerCore]
    by_cases hgt : s.question_index + 1 > stage_limits s.stage
    · rw [if_pos hgt]
      cases hs : s.stage
      · rw [hs] at hgt
        refine ⟨rfl, ?_, ?_⟩
        · intro hle
          simp only [stage_limits] at hgt hle
          omega
        · refine fun _ => ⟨fun _ => ⟨rfl, rfl, rfl, hst⟩, fun hc => ?_,
            fun hc => ?_⟩
          · exact Stage.noConfusion hc
          · exact Stage.noConfusion hc
      · rw [hs] at hgt
        refine ⟨rfl, ?_, ?_⟩
        · intro hle
          simp only [stage_limits] at hgt hle
          omega
        · refine fun _ => ⟨fun hc => ?_, fun _ => ⟨rfl, rfl, rfl, hst⟩,
            fun hc => ?_⟩
          · exact Stage.noConfusion hc
          · exact Stage.noConfusion hc
      · rw [hs] at hgt
        refine ⟨rfl, ?_, ?_⟩
        · intro hle
          simp only [stage_limits] at hgt hle
          omega
        · refine fun _ => ⟨fun hc => ?_, fun hc => ?_, fun _ => ⟨rfl, rfl, rfl⟩⟩
          · exact Stage.noConfusion hc
          · exact Stage.noConfusion hc
    · rw [if_neg hgt]
      refine ⟨rfl, fun _ => ⟨rfl, rfl, hst⟩, fun hc => absurd hc hgt⟩
  · intro inps hdone
    have h := runAnswers_inv byId inps freshSession [] SessInv_fresh
    exact h.2 hdone
  · intro s rows inp hst
    unfold answerStep
    rw [if_neg]
    rw [hst]
    intro hc
    exact Status.noConfusion hc

/-- C2 (witness): the theorem at concrete inputs — a completed session
rejects a submission unchanged, and the first answer of a fresh session
appends one row and advances the question index to 2. -/
theorem C2_witness :
    answerStep (fun _ => none) (doneSess, []) inp0 = (doneSess, []) ∧
    (answerStep (fun _ => none) (freshSession, []) inp0).2 =
      [] ++ [gradedRow (fun _ => none) freshSession inp0] ∧
    (answerStep (fun _ => none) (freshSession, []) inp0).1.question_index = 2 := by
  obtain ⟨h1, _, h3⟩ := C2_stage_machine (fun _ => none)
  refine ⟨h3 doneSess [] inp0 rfl, ?_, ?_⟩
  · exact (h1 freshSession [] inp0 rfl).1
  · have hq := ((h1 freshSession [] inp0 rfl).2.1 (by decide)).2.1
    rw [hq]
    decide

/-- The result's ability level is the tracker's update formula: changed
only in the adaptive stage, clamped by `min 5` / `max 1`. -/
lemma answerCore_level (byId : String → Option RawItem) (s : Session)
    (rows : List AnswerRow) (inp : AnswerInput) :
    (answerCore byId s rows inp).1.adaptive_level =
      (if s.stage = .adaptive then
        (if (gradedRow byId s inp).is_correct = 1 then
          min 5 (s.adaptive_level + 1)
        else max 1 (s.adaptive_level - 1))
      else s.adaptive_level) := by
  simp only [answerCore]
  by_cases hgt : s.question_index + 1 > stage_limits s.stage
  · rw [if_pos hgt]
    cases hs : s.stage <;> rfl
  · rw [if_neg hgt]

/-- One guarded submission keeps the ability level inside `[1, 5]`. -/
lemma answerStep_level_bounds (byId : String → Option RawItem) (s : Session)
    (rows : List AnswerRow) (inp : AnswerInput)
    (h1 : 1 ≤ s.adaptive_level) (h5 : s.adaptive_level ≤ 5) :
    1 ≤ (answerStep byId (s, rows) inp).1.adaptive_level ∧
      (answerStep byId (s, rows) inp).1.adaptive_level ≤ 5 := by
  unfold answerStep
  by_cases hst : s.status = .in_progress
  · simp only [hst, if_pos]
    rw [answerCore_level]
    by_cases hs : s.stage = .adaptive
    · rw [if_pos hs]
      by_cases hic : (gradedRow byId s inp).is_correct = 1
      · rw [if_pos hic]
        constructor <;> simp only [min_def] <;> split <;> omega
      · rw [if_neg hic]
        constructor <;> simp only [max_def] <;> split <;> omega
    · rw [if_neg hs]
      exact ⟨h1, h5⟩
  · rw [if_neg hst]
    exact ⟨h1, h5⟩

/-- C4 (confirmed): the ability level stays in `[1, 5]` across every
submission sequence whose start lies in `[1, 5]`; within the adaptive
stage it is updated to `min 5 (l+1)` on a correct answer and
`max 1 (l-1)` on an incorrect one, and in the classic and speed stages it
is never changed. -/
theorem C4_ability (byId : String → Option RawItem) :
    (∀ (s : Session) (rows : List AnswerRow) (inp : AnswerInput),
      1 ≤ s.adaptive_level → s.adaptive_level ≤ 5 →
      1 ≤ (answerStep byId (s, rows) inp).1.adaptive_level ∧
      (answerStep byId (s, rows) inp).1.adaptive_level ≤ 5) ∧
    (∀ (s : Session) (rows : List AnswerRow) (inp : AnswerInput),
      s.status = .in_progress →
      (s.stage = .adaptive →
        (answerStep byId (s, rows) inp).1.adaptive_level =
          (if (gradedRow byId s inp).is_correct = 1 then
            min 5 (s.adaptive_level + 1)
          else max 1 (s.adaptive_level - 1))) ∧
      (s.stage ≠ .adaptive →
        (answerStep byId (s, rows) inp).1.adaptive_level =
          s.adaptive_level)) ∧
    (∀ (s : Session) (rows : List AnswerRow) (inps : List AnswerInput),
      1 ≤ s.adaptive_level → s.adaptive_level ≤ 5 →
      1 ≤ (runAnswers byId (s, rows) inps).1.adaptive_level ∧
      (runAnswers byId (s, rows) inps).1.adaptive_level ≤ 5) := by
  refine ⟨fun s rows inp => answerStep_level_bounds byId s rows inp, ?_, ?_⟩
  · intro s rows inp hst
    constructor
    · intro hs
      unfold answerStep
      simp only [hst, if_pos]
      rw [answerCore_level, if_pos hs]
    · intro hs
      unfold answerStep
      simp only [hst, if_pos]
      rw [answerCore_level, if_neg hs]
  · intro s rows inps
    induction inps generalizing s rows with
    | nil =>
      intro h1 h5
      simpa [runAnswers] using And.intro h1 h5
    | cons i is ih =>
      intro h1 h5
      obtain ⟨g1, g5⟩ := answerStep_level_bounds byId s rows i h1 h5
      have h2 := ih (answerStep byId (s, rows) i).1
        (answerStep byId (s, rows) i).2 g1 g5
      simpa [runAnswers] using h2

/-- An in-progress classic-stage session at ability level 4. -/
def classicSess : Session :=
  { stage := .classic, stage_index := 2, question_index := 3
    adaptive_level := 4, status := .in_progress, result_locked := true
    unlock_token_id := none, final_iq := none, percentile := none }

/-- C4 (witness): the theorem at concrete inputs — the fresh session's
level stays in range under an empty sequence, and a classic-stage answer
leaves the level untouched. -/
theorem C4_witness :
    (1 ≤ (runAnswers (fun _ => none) (freshSession, []) []).1.adaptive_level ∧
      (runAnswers (fun _ => none) (freshSession, []) []).1.adaptive_level ≤ 5) ∧
    (answerStep (fun _ => none) (classicSess, []) inp0).1.adaptive_level =
      classicSess.adaptive_level := by
  obtain ⟨_, hf, ht⟩ := C4_ability (fun _ => none)
  refine ⟨ht freshSession [] [] (by decide) (by decide), ?_⟩
  exact (hf classicSess [] inp0 rfl).2 (by decide)

/-! ### Claim C6: used-id exclusion in selection -/

/-- A bank item with id `X`, eligible for the adaptive stage at level 2. -/
def c6x : RawItem := { RawItem.empty with id := some "X", difficulty := .val 2 }

/-- A bank item with id `Y`, eligible for the adaptive stage at level 2. -/
def c6y : RawItem := { RawItem.empty with id := some "Y", difficulty := .val 2 }

/-- C6 (counterexample): `pick_question` takes no set of used ids at all;
with bank `[X, Y]`, both eligible, and `X` already used, the selection
can return `X` again even though the unused eligible `Y` exists. -/
theorem C6_counterexample :
    (pick_question [c6x, c6y] Stage.adaptive 2 0 "w" 0).id = "X" ∧
    eligible Stage.adaptive 2 c6y = true ∧
    "Y" ∉ (["X"] : List String) ∧
    "X" ∈ (["X"] : List String) := by
  refine ⟨by decide, by decide, by decide, by decide⟩

/-- C6 (amended): the application's `pick_question` ignores used ids and
may repeat an item (see the counterexample); the standalone selector
`choose_next` of `tools/adaptive.py` does honour them — whenever the bank
holds an item outside `used_ids`, every possible pick is an item outside
`used_ids`. -/
theorem C6_choose_next_no_repeat :
    ∀ (bank : List ToolQ) (used_ids : List String) (theta : ℚ)
      (target_category : Option String) (k : Nat) (q : ToolQ),
      q ∈ bank → q.id ∉ used_ids →
      ∃ r : ToolQ, choose_next bank used_ids theta target_category k = some r ∧
        r.id ∉ used_ids := by
  intro bank used theta target k q hq hqid
  have main : ∀ cand : List ToolQ, cand ≠ [] → (∀ x ∈ cand, x.id ∉ used) →
      ∃ r : ToolQ,
        ((cand.mergeSort
            (fun (a b : ToolQ) =>
              decide (|b_of a - theta| ≤ |b_of b - theta|))).take 30)[
          k % ((cand.mergeSort
            (fun (a b : ToolQ) =>
              decide (|b_of a - theta| ≤ |b_of b - theta|))).take 30).length]?
          = some r ∧ r.id ∉ used := by
    intro cand hne hall
    have hslen : (cand.mergeSort
        (fun (a b : ToolQ) =>
          decide (|b_of a - theta| ≤ |b_of b - theta|))).length = cand.length :=
      (List.mergeSort_perm cand _).length_eq
    have hlen : 0 < ((cand.mergeSort
        (fun (a b : ToolQ) =>
          decide (|b_of a - theta| ≤ |b_of b - theta|))).take 30).length := by
      rw [List.length_take, hslen]
      have hpos : 0 < cand.length := List.length_pos.mpr hne
      omega
    have hidx := Nat.mod_lt k hlen
    refine ⟨_, List.getElem?_eq_getElem hidx, ?_⟩
    have hmem1 := List.getElem_mem hidx
    have hmem2 := List.take_subset 30 _ hmem1
    have hmem3 := List.mem_mergeSort.mp hmem2
    exact hall _ hmem3
  unfold choose_next choose_next_pool
  have hq0 : q ∈ bank.filter (fun (x : ToolQ) => decide (x.id ∉ used)) :=
    List.mem_filter.mpr ⟨hq, by simpa using hqid⟩
  have hall0 : ∀ x ∈ bank.filter (fun (x : ToolQ) => decide (x.id ∉ used)),
      x.id ∉ used := by
    intro x hx
    simpa using (List.mem_filter.mp hx).2
  rcases target with _ | c
  · exact main _ (List.ne_nil_of_mem hq0) hall0
  · simp only
    by_cases hemp : ((bank.filter (fun (x : ToolQ) => decide (x.id ∉ used))).filter
        (fun (x : ToolQ) => decide (x.category = c))).isEmpty
    · rw [if_pos hemp]
      exact main _ (List.ne_nil_of_mem hq0) hall0
    · rw [if_neg hemp]
      refine main _ ?_ ?_
      · intro hnil
        rw [hnil] at hemp
        exact hemp rfl
      · intro x hx
        exact hall0 x (List.mem_of_mem_filter hx)

/-- A concrete generated-bank-style question for the witness. -/
def c6q : ToolQ := ⟨"AR-000001", "arithmetic_reasoning", 2⟩

/-- C6 (witness): the amended theorem at a one-item bank with no used
ids — the pick exists and is unused. -/
theorem C6_witness :
    ∃ r : ToolQ, choose_next [c6q] [] 0 none 0 = some r ∧
      r.id ∉ ([] : List String) :=
  C6_choose_next_no_repeat [c6q] [] 0 none 0 c6q (by decide) (by decide)
